import Mathlib

/-!
# Verification of the fil-parser actor-address cache and parsing pipeline

This file embeds, in Lean 4, the actor address-resolution cache of
`actors/cache/cache.go` (the `ActorsCache` operations `GetActorCode`,
`GetRobustAddress`, `GetShortAddress` and the private store-path helpers
`storeActorCode`, `storeShortAddress`, `storeRobustAddress`) together with a
model of the parsing pipeline (`GetBaseFee`, `ParseTransactions`,
`ParseGenesis`). The cache control flow is translated line-by-line from the Go
source; the offline store backend and the parser entry points, whose
implementations live outside the provided sources, are modelled from the
specification and are marked as such in their doc comments.

The Go functions are mutually recursive and, on some inputs, do not
terminate; the embedding therefore threads an explicit fuel parameter. A
result of `.diverge` means the fuel was exhausted: a computation that yields
`.diverge` for every fuel value diverges in the original program. Every
interaction with the offline store and the on-chain resolver is recorded in
an event log so that claims of the form "the resolver is never invoked" can
be stated as facts about the log.
-/

/-- One logical record per actor, with three optional facets. The empty
string models an absent facet, as in the Go `types.AddressInfo` struct whose
fields are plain strings. -/
structure AddressInfo where
  short : String
  robust : String
  actorCid : String
deriving DecidableEq, Repr

/-- Modelled from the spec: the additive merge used by the Offline Store's
`Put`. A non-empty facet of the new record overwrites; an empty facet
preserves the previously stored value ("merges are additive", never erasing
a known facet with an empty one). -/
def mergeInfo (old new : AddressInfo) : AddressInfo :=
  { short := if new.short ≠ "" then new.short else old.short
    robust := if new.robust ≠ "" then new.robust else old.robust
    actorCid := if new.actorCid ≠ "" then new.actorCid else old.actorCid }

/-- The Offline Store's contents: a table of accumulated address records. -/
abbrev Store := List AddressInfo

/-- Whether a stored record answers a lookup for address `a`: its short or
robust facet equals the (non-empty) queried address. -/
def keyMatch (a : String) (r : AddressInfo) : Bool :=
  a ≠ "" && (r.short == a || r.robust == a)

/-- Lookup by whichever representation the caller supplies: the first record
whose short or robust facet equals the queried address. Modelled from the
spec ("lookups are keyed by whichever representation the caller supplies"). -/
def findRec (st : Store) (a : String) : Option AddressInfo :=
  List.find? (keyMatch a) st

/-- Offline read of the short facet for a queried address. -/
def offlineGetShort (st : Store) (a : String) : Option String :=
  match findRec st a with
  | some r => if r.short ≠ "" then some r.short else none
  | none => none

/-- Offline read of the robust facet for a queried address. -/
def offlineGetRobust (st : Store) (a : String) : Option String :=
  match findRec st a with
  | some r => if r.robust ≠ "" then some r.robust else none
  | none => none

/-- Offline read of the actor-code facet for a queried address. -/
def offlineGetActorCode (st : Store) (a : String) : Option String :=
  match findRec st a with
  | some r => if r.actorCid ≠ "" then some r.actorCid else none
  | none => none

/-- Modelled from the spec: the Offline Store's `StoreAddressInfo` merges the
supplied partial record into the existing record with the same short-form
key ("identity key for storage purposes is the short form"), appending a
fresh record when none exists. -/
def StoreAddressInfo (st : Store) (info : AddressInfo) : Store :=
  match st with
  | [] => [info]
  | r :: rest =>
    if r.short == info.short then mergeInfo r info :: rest
    else r :: StoreAddressInfo rest info

/-- `SystemActorsId`: the fixed allow-list of system actors that have no
associated robust address, copied from `cache.go`. -/
def SystemActorsId : List String :=
  ["f00", "f01", "f02", "f03", "f04", "f05", "f06", "f07", "f099"]

/-- The On-Chain Resolver, the authoritative source: for each facet, either
a successfully resolved value or `none` (node error / actor absent). The
actor-code lookup is additionally scoped by a tipset key. -/
structure Env where
  actorCode : String → String → Option String
  robust : String → Option String
  short : String → Option String

/-- Observable events of one cache operation. -/
inductive Evt where
  | offlineRead
  | onChainQuery
  | offlineWrite
deriving DecidableEq, Repr

/-- Outcome of a cache operation: a successful value, a Go error, or fuel
exhaustion (the original mutual recursion did not terminate within the
supplied fuel). -/
inductive RRes where
  | ok (v : String)
  | err
  | diverge
deriving DecidableEq, Repr

mutual

/-- `ActorsCache.GetActorCode` from `cache.go`: try the offline store; on a
miss query the on-chain resolver; on success write back through
`storeActorCode` and fail if the write-back fails. -/
def GetActorCode : Nat → Env → Store → String → String → RRes × Store × List Evt
  | 0, _, st, _, _ => (.diverge, st, [])
  | n + 1, env, st, add, key =>
    match offlineGetActorCode st add with
    | some c => (.ok c, st, [.offlineRead])
    | none =>
      match env.actorCode add key with
      | none => (.err, st, [.offlineRead, .onChainQuery])
      | some c =>
        match storeActorCode n env st add { short := "", robust := "", actorCid := c } with
        | (.ok _, st2, l2) => (.ok c, st2, .offlineRead :: .onChainQuery :: l2)
        | (.err, st2, l2) => (.err, st2, .offlineRead :: .onChainQuery :: l2)
        | (.diverge, st2, l2) => (.diverge, st2, .offlineRead :: .onChainQuery :: l2)

/-- `ActorsCache.GetRobustAddress` from `cache.go`: short-circuit for system
actors, then offline store, then on-chain resolver with write-back through
`storeRobustAddress`. -/
def GetRobustAddress : Nat → Env → Store → String → RRes × Store × List Evt
  | 0, _, st, _ => (.diverge, st, [])
  | n + 1, env, st, add =>
    if SystemActorsId.contains add then (.ok add, st, [])
    else
      match offlineGetRobust st add with
      | some r => (.ok r, st, [.offlineRead])
      | none =>
        match env.robust add with
        | none => (.err, st, [.offlineRead, .onChainQuery])
        | some r =>
          match storeRobustAddress n env st add { short := "", robust := r, actorCid := "" } with
          | (.ok _, st2, l2) => (.ok r, st2, .offlineRead :: .onChainQuery :: l2)
          | (.err, st2, l2) => (.err, st2, .offlineRead :: .onChainQuery :: l2)
          | (.diverge, st2, l2) => (.diverge, st2, .offlineRead :: .onChainQuery :: l2)

/-- `ActorsCache.GetShortAddress` from `cache.go`: offline store, then
on-chain resolver with write-back through `storeShortAddress`. There is no
system-actor short-circuit in this operation. -/
def GetShortAddress : Nat → Env → Store → String → RRes × Store × List Evt
  | 0, _, st, _ => (.diverge, st, [])
  | n + 1, env, st, add =>
    match offlineGetShort st add with
    | some s => (.ok s, st, [.offlineRead])
    | none =>
      match env.short add with
      | none => (.err, st, [.offlineRead, .onChainQuery])
      | some s =>
        match storeShortAddress n env st add { short := s, robust := "", actorCid := "" } with
        | (.ok _, st2, l2) => (.ok s, st2, .offlineRead :: .onChainQuery :: l2)
        | (.err, st2, l2) => (.err, st2, .offlineRead :: .onChainQuery :: l2)
        | (.diverge, st2, l2) => (.diverge, st2, .offlineRead :: .onChainQuery :: l2)

/-- `ActorsCache.storeActorCode` from `cache.go`: resolve the short form by
a full `GetShortAddress` call, then merge `{Short, ActorCid}` into the
offline store. -/
def storeActorCode : Nat → Env → Store → String → AddressInfo → RRes × Store × List Evt
  | 0, _, st, _, _ => (.diverge, st, [])
  | n + 1, env, st, add, info =>
    match GetShortAddress n env st add with
    | (.ok s, st1, l1) =>
      (.ok "", StoreAddressInfo st1 { short := s, robust := "", actorCid := info.actorCid },
        l1 ++ [.offlineWrite])
    | (.err, st1, l1) => (.err, st1, l1)
    | (.diverge, st1, l1) => (.diverge, st1, l1)

/-- `ActorsCache.storeShortAddress` from `cache.go`: resolve the robust form
by a full `GetRobustAddress` call, then merge `{Short, Robust}` into the
offline store. -/
def storeShortAddress : Nat → Env → Store → String → AddressInfo → RRes × Store × List Evt
  | 0, _, st, _, _ => (.diverge, st, [])
  | n + 1, env, st, add, info =>
    match GetRobustAddress n env st add with
    | (.ok r, st1, l1) =>
      (.ok "", StoreAddressInfo st1 { short := info.short, robust := r, actorCid := "" },
        l1 ++ [.offlineWrite])
    | (.err, st1, l1) => (.err, st1, l1)
    | (.diverge, st1, l1) => (.diverge, st1, l1)

/-- `ActorsCache.storeRobustAddress` from `cache.go`: resolve the short form
by a full `GetShortAddress` call, then merge `{Short, Robust}` into the
offline store. -/
def storeRobustAddress : Nat → Env → Store → String → AddressInfo → RRes × Store × List Evt
  | 0, _, st, _, _ => (.diverge, st, [])
  | n + 1, env, st, add, info =>
    match GetShortAddress n env st add with
    | (.ok s, st1, l1) =>
      (.ok "", StoreAddressInfo st1 { short := s, robust := info.robust, actorCid := "" },
        l1 ++ [.offlineWrite])
    | (.err, st1, l1) => (.err, st1, l1)
    | (.diverge, st1, l1) => (.diverge, st1, l1)

end

/-- A well-formed resolver: a successful lookup never "produces" the empty
string. In the spec's data model an empty facet means the facet is absent,
so an on-chain resolver that produces a facet produces a non-empty one. -/
def EnvOk (env : Env) : Prop :=
  (∀ a k, env.actorCode a k ≠ some "") ∧
    (∀ a, env.robust a ≠ some "") ∧ (∀ a, env.short a ≠ some "")

/-- A concrete healthy resolver used for concrete executions: every lookup
succeeds. -/
def env0 : Env :=
  { actorCode := fun _ _ => some "bafkCodeCid"
    robust := fun _ => some "f2resolvedrobust"
    short := fun _ => some "f0100" }

/-- A concrete resolver whose actor-code lookup succeeds while the short and
robust address lookups fail. -/
def env1 : Env :=
  { actorCode := fun _ _ => some "bafkCodeCid"
    robust := fun _ => none
    short := fun _ => none }

/-! ## The parsing pipeline

The parser entry points (`ParseTransactions`, `GetBaseFee`, `ParseGenesis`)
and the protocol decoders are exercised by `parser_test.go` but their
implementations are not among the provided sources; they are modelled from
the specification below. -/

/-- Modelled from the spec: one decoded fee entry of a trace payload, with
its trace level and its decoded value; `none` models an entry whose value
failed to decode (an unusable entry). -/
structure FeeEntry where
  level : Nat
  value : Option Nat
deriving DecidableEq, Repr

/-- A block header: its CID and its recorded parent base fee. -/
structure BlockHeader where
  blockCid : String
  parentBaseFee : Nat
deriving DecidableEq, Repr

/-- A tipset: its blocks and its own CID (`types.ExtendedTipSet`). -/
structure ExtendedTipSet where
  blocks : List BlockHeader
  tipsetCid : String
deriving DecidableEq, Repr

/-- Modelled from the spec: `GetBaseFee` scans the decoded fee entries for
the first usable entry at trace level zero and returns its value; when no
usable level-zero entry exists it falls back to the recorded parent base fee
of the first block of the supplied tipset (`none` only when the tipset has
no blocks at all). -/
def GetBaseFee (entries : List FeeEntry) (ts : ExtendedTipSet) : Option Nat :=
  match entries.find? (fun e => e.level == 0 && e.value.isSome) with
  | some e => e.value
  | none => ts.blocks.head?.map (fun b => b.parentBaseFee)

/-- A draft transaction emitted by a decoder: raw actor references plus the
invoked method and transferred value. -/
structure Trace where
  txFrom : String
  txTo : String
  method : String
  amount : Nat
deriving DecidableEq, Repr

/-- A normalized output transaction with provenance fields. -/
structure Transaction where
  txFrom : String
  txTo : String
  method : String
  amount : Nat
  blockCid : String
  tipsetCid : String
deriving DecidableEq, Repr

/-- A protocol decoder: the node version strings it supports and its decode
operation. -/
structure Decoder where
  nodeVersionsSupported : List String
  decode : List Trace → Option (List Trace)

/-- Modelled from the spec: the uniform "decode traces into draft
transactions" operation shared by the version-specific decoders; decoding
fails on a payload containing a malformed record (one without a sender). -/
def uniformDecode (payload : List Trace) : Option (List Trace) :=
  if payload.all (fun t => t.txFrom != "") then some payload else none

/-- Node versions supported by the v1 decoder (`v1.NodeVersionsSupported`). -/
def NodeVersionsSupportedV1 : List String := ["v1.22"]

/-- Node versions supported by the v2 decoder (`v2.NodeVersionsSupported`). -/
def NodeVersionsSupportedV2 : List String := ["v1.23", "v1.24", "v1.25", "v1.26"]

/-- The v1 protocol decoder. -/
def decoderV1 : Decoder := ⟨NodeVersionsSupportedV1, uniformDecode⟩

/-- The v2 protocol decoder. -/
def decoderV2 : Decoder := ⟨NodeVersionsSupportedV2, uniformDecode⟩

/-- The closed set of decoders, newest first, as the spec's selection policy
prefers the newest matching decoder. -/
def decoders : List Decoder := [decoderV2, decoderV1]

/-- Decoder selection: the first (newest) decoder whose supported-version
set contains the reported node version. -/
def selectDecoder (version : String) : Option Decoder :=
  decoders.find? (fun d => d.nodeVersionsSupported.contains version)

/-- The deduplicated address registry returned by a parse call, keyed by
short form. -/
abbrev AddressInfoMap := List (String × AddressInfo)

/-- Insert a resolved record unless its short-form key is already present
(dedup by short form). -/
def registryAdd (m : AddressInfoMap) (info : AddressInfo) : AddressInfoMap :=
  if m.any (fun kv => kv.1 == info.short) then m else m ++ [(info.short, info)]

/-- Point lookup in the registry by short-form key. -/
def registryGet (m : AddressInfoMap) (k : String) : Option AddressInfo :=
  (m.find? (fun kv => kv.1 == k)).map (fun kv => kv.2)

/-- Accumulate one resolved actor reference into the registry; an
unresolvable reference is left out (best-effort). -/
def addResolved (resolve : String → Option AddressInfo) (m : AddressInfoMap)
    (a : String) : AddressInfoMap :=
  match resolve a with
  | some i => registryAdd m i
  | none => m

/-- Resolve every actor reference of every draft into the registry. -/
def collectAddresses (resolve : String → Option AddressInfo)
    (drafts : List Trace) : AddressInfoMap :=
  drafts.foldl (fun m t => addResolved resolve (addResolved resolve m t.txFrom) t.txTo) []

/-- The CID of the first block of a tipset. -/
def tipsetBlockCid (ts : ExtendedTipSet) : String :=
  (ts.blocks.head?.map (fun b => b.blockCid)).getD ""

/-- Finalize one draft into a normalized transaction with provenance. -/
def assembleTx (ts : ExtendedTipSet) (t : Trace) : Transaction :=
  { txFrom := t.txFrom, txTo := t.txTo, method := t.method, amount := t.amount
    blockCid := tipsetBlockCid ts, tipsetCid := ts.tipsetCid }

/-- Modelled from the spec: `ParseTransactions` selects the decoder matching
the reported node version, decodes the payload into drafts, resolves every
actor reference into the registry and finalizes the transaction sequence in
the decoder's emission order. `none` models the fatal unsupported-version
and decode-failure errors. -/
def ParseTransactions (resolve : String → Option AddressInfo)
    (payload : List Trace) (ts : ExtendedTipSet) (version : String) :
    Option (List Transaction × AddressInfoMap) :=
  match selectDecoder version with
  | none => none
  | some d =>
    match d.decode payload with
    | none => none
    | some drafts => some (drafts.map (assembleTx ts), collectAddresses resolve drafts)

/-- One genesis balance-allocation entry: recipient identity and amount. -/
structure GenesisBalance where
  recipient : String
  amount : Nat
deriving DecidableEq, Repr

/-- Modelled from the spec: `ParseGenesis` synthesizes one transaction per
balance-allocation entry, tagging each with the genesis tipset's own block
and tipset identifiers. -/
def ParseGenesis (balances : List GenesisBalance) (genesisTs : ExtendedTipSet) :
    List Transaction :=
  balances.map fun b =>
    { txFrom := "", txTo := b.recipient, method := "genesis", amount := b.amount
      blockCid := tipsetBlockCid genesisTs, tipsetCid := genesisTs.tipsetCid }

/-- The last non-empty value of a list of facet values, or the initial value
when every supplied value is empty: the result of an additive facet merge. -/
def lastNonEmpty (init : String) (xs : List String) : String :=
  xs.foldl (fun acc x => if x ≠ "" then x else acc) init

/-!
## Theorems

The remainder of the file settles the claims about the code above.
-/

theorem getRobustAddress_system (n : Nat) (env : Env) (st : Store) (add : String)
    (h : SystemActorsId.contains add = true) :
    GetRobustAddress (n + 1) env st add = (.ok add, st, []) := by
  simp only [GetRobustAddress]
  rw [if_pos h]

/-- C2: for every identity in `SystemActorsId`, `GetRobustAddress` returns
that identity unchanged, and during that call the on-chain resolver is never
invoked and the offline store is never consulted nor written: the returned
store equals the input store and the event log is empty. -/
theorem c2_system_actor_short_circuit (n : Nat) (env : Env) (st : Store)
    (add : String) (h : add ∈ SystemActorsId) :
    GetRobustAddress (n + 1) env st add = (.ok add, st, []) := by
  apply getRobustAddress_system
  simpa [SystemActorsId] using h

/-- Witness for C2 at the concrete system actor `f00`. -/
theorem c2_system_actor_short_circuit_witness :
    GetRobustAddress 6 env0 [] "f00" = (.ok "f00", [], []) :=
  c2_system_actor_short_circuit 5 env0 [] "f00" (by decide)

/-- C10: only `GetRobustAddress` applies the system-actor short-circuit.
For an identity in `SystemActorsId` whose facets are absent from the offline
store, `GetShortAddress` and `GetActorCode` still consult the offline store
and then the on-chain resolver: their event logs start with an offline read
followed by an on-chain query. -/
theorem c10_no_short_circuit_for_code_and_short (n : Nat) (env : Env)
    (st : Store) (a key : String) (_hsys : a ∈ SystemActorsId)
    (hshort : offlineGetShort st a = none)
    (hcode : offlineGetActorCode st a = none) :
    (∃ l, (GetShortAddress (n + 1) env st a).2.2 = .offlineRead :: .onChainQuery :: l) ∧
    (∃ l, (GetActorCode (n + 1) env st a key).2.2 = .offlineRead :: .onChainQuery :: l) := by
  constructor
  · cases hs : env.short a with
    | none => exact ⟨[], by simp [GetShortAddress, hshort, hs]⟩
    | some s =>
      rcases hrun : storeShortAddress n env st a ⟨s, "", ""⟩ with ⟨res, st2, l2⟩
      cases res <;> exact ⟨l2, by simp [GetShortAddress, hshort, hs, hrun]⟩
  · cases hc : env.actorCode a key with
    | none => exact ⟨[], by simp [GetActorCode, hcode, hc]⟩
    | some c =>
      rcases hrun : storeActorCode n env st a ⟨"", "", c⟩ with ⟨res, st2, l2⟩
      cases res <;> exact ⟨l2, by simp [GetActorCode, hcode, hc, hrun]⟩

/-- Witness for C10 at the concrete system actor `f00` with an empty offline
store and a healthy resolver. -/
theorem c10_no_short_circuit_for_code_and_short_witness :
    (∃ l, (GetShortAddress 9 env0 [] "f00").2.2 = .offlineRead :: .onChainQuery :: l) ∧
    (∃ l, (GetActorCode 9 env0 [] "f00" "tsk").2.2 = .offlineRead :: .onChainQuery :: l) :=
  c10_no_short_circuit_for_code_and_short 8 env0 [] "f00" "tsk" (by decide) rfl rfl

theorem cold_diverges (env : Env) (st : Store) (a : String)
    (hsys : SystemActorsId.contains a = false)
    (h1 : offlineGetShort st a = none) (h2 : offlineGetRobust st a = none)
    (hs : env.short a ≠ none) (hr : env.robust a ≠ none) :
    ∀ n, (GetShortAddress n env st a).1 = .diverge ∧
      (GetRobustAddress n env st a).1 = .diverge ∧
      (∀ i, (storeShortAddress n env st a i).1 = .diverge) ∧
      (∀ i, (storeRobustAddress n env st a i).1 = .diverge) := by
  intro n
  induction n with
  | zero => exact ⟨rfl, rfl, fun _ => rfl, fun _ => rfl⟩
  | succ n ih =>
    obtain ⟨ihgs, ihgr, ihss, ihsr⟩ := ih
    obtain ⟨s, hs'⟩ := Option.ne_none_iff_exists'.mp hs
    obtain ⟨r, hr'⟩ := Option.ne_none_iff_exists'.mp hr
    refine ⟨?_, ?_, ?_, ?_⟩
    · rcases hrun : storeShortAddress n env st a ⟨s, "", ""⟩ with ⟨res, st2, l2⟩
      have hres : res = .diverge := by
        have := ihss ⟨s, "", ""⟩; rw [hrun] at this; exact this
      subst hres
      simp [GetShortAddress, h1, hs', hrun]
    · rcases hrun : storeRobustAddress n env st a ⟨"", r, ""⟩ with ⟨res, st2, l2⟩
      have hres : res = .diverge := by
        have := ihsr ⟨"", r, ""⟩; rw [hrun] at this; exact this
      subst hres
      simp only [GetRobustAddress]
      rw [if_neg (by simp only [hsys]; exact Bool.false_ne_true)]
      simp [h2, hr', hrun]
    · intro i
      rcases hrun : GetRobustAddress n env st a with ⟨res, st2, l2⟩
      have hres : res = .diverge := by rw [hrun] at ihgr; exact ihgr
      subst hres
      simp [storeShortAddress, hrun]
    · intro i
      rcases hrun : GetShortAddress n env st a with ⟨res, st2, l2⟩
      have hres : res = .diverge := by rw [hrun] at ihgs; exact ihgs
      subst hres
      simp [storeRobustAddress, hrun]

theorem getActorCode_cold_diverges (env : Env) (st : Store) (a key : String)
    (hsys : SystemActorsId.contains a = false)
    (h1 : offlineGetShort st a = none) (h2 : offlineGetRobust st a = none)
    (h3 : offlineGetActorCode st a = none)
    (hs : env.short a ≠ none) (hr : env.robust a ≠ none)
    (hc : env.actorCode a key ≠ none) :
    ∀ n, (GetActorCode n env st a key).1 = .diverge := by
  intro n
  obtain ⟨c, hc'⟩ := Option.ne_none_iff_exists'.mp hc
  match n with
  | 0 => rfl
  | 1 => simp [GetActorCode, h3, hc', storeActorCode]
  | n + 2 =>
    have hgs := (cold_diverges env st a hsys h1 h2 hs hr n).1
    rcases hrun : GetShortAddress n env st a with ⟨res, st2, l2⟩
    have hres : res = .diverge := by rw [hrun] at hgs; exact hgs
    subst hres
    rcases hrun2 : storeActorCode (n + 1) env st a ⟨"", "", c⟩ with ⟨res2, st3, l3⟩
    have hres2 : res2 = .diverge := by
      have : storeActorCode (n + 1) env st a ⟨"", "", c⟩ =
          (.diverge, st2, l2) := by simp [storeActorCode, hrun]
      rw [hrun2] at this
      exact congrArg Prod.fst this
    subst hres2
    simp [GetActorCode, h3, hc', hrun2]

/-- C1: the claim fails on the code. For a previously-unseen identity (no
facet in the offline store) with a healthy on-chain resolver, each of the
three resolve operations enters the unbounded mutual recursion between the
resolve operations and the store-path helpers (`GetShortAddress →
storeShortAddress → GetRobustAddress → storeRobustAddress →
GetShortAddress → …`): no amount of fuel suffices, so none of the three
operations terminates. -/
theorem c1_cold_identity_resolution_diverges :
    ∀ n, (GetShortAddress n env0 [] "f0900").1 = .diverge ∧
      (GetRobustAddress n env0 [] "f0900").1 = .diverge ∧
      (GetActorCode n env0 [] "f0900" "tsk").1 = .diverge := by
  intro n
  have h := cold_diverges env0 [] "f0900" (by decide) rfl rfl
    (by simp [env0]) (by simp [env0]) n
  exact ⟨h.1, h.2.1,
    getActorCode_cold_diverges env0 [] "f0900" "tsk" (by decide) rfl rfl rfl
      (by simp [env0]) (by simp [env0]) (by simp [env0]) n⟩

/-- C3 counterexample: the claim "the operation fails if and only if both
tiers fail to produce the requested facet" is false. Here the on-chain
resolver produces the actor code for `f0900`, yet `GetActorCode` fails,
because the write-back path (`storeActorCode` → `GetShortAddress`) cannot
resolve the complementary short facet. -/
theorem c3_counterexample :
    env1.actorCode "f0900" "tsk" = some "bafkCodeCid" ∧
      (GetActorCode 9 env1 [] "f0900" "tsk").1 = .err := by
  exact ⟨rfl, by decide⟩

/-- C3 amended: each resolve operation succeeds with the offline value
whenever the offline store produces the requested facet (for
`GetRobustAddress`, outside the system-actor allow-list), and fails when
both the offline store and the on-chain resolver fail to produce it; for a
system actor `GetRobustAddress` succeeds without consulting either tier.
When only the on-chain resolver produces the facet, success additionally
requires the write-back's complementary resolution to succeed (see the
counterexample). -/
theorem c3_amended_two_tier_failure_semantics (n : Nat) (env : Env)
    (st : Store) (a key : String) :
    (∀ c, offlineGetActorCode st a = some c →
      GetActorCode (n + 1) env st a key = (.ok c, st, [.offlineRead])) ∧
    (offlineGetActorCode st a = none → env.actorCode a key = none →
      GetActorCode (n + 1) env st a key = (.err, st, [.offlineRead, .onChainQuery])) ∧
    (∀ r, SystemActorsId.contains a = false → offlineGetRobust st a = some r →
      GetRobustAddress (n + 1) env st a = (.ok r, st, [.offlineRead])) ∧
    (SystemActorsId.contains a = false → offlineGetRobust st a = none →
      env.robust a = none →
      GetRobustAddress (n + 1) env st a = (.err, st, [.offlineRead, .onChainQuery])) ∧
    (SystemActorsId.contains a = true →
      GetRobustAddress (n + 1) env st a = (.ok a, st, [])) ∧
    (∀ s, offlineGetShort st a = some s →
      GetShortAddress (n + 1) env st a = (.ok s, st, [.offlineRead])) ∧
    (offlineGetShort st a = none → env.short a = none →
      GetShortAddress (n + 1) env st a = (.err, st, [.offlineRead, .onChainQuery])) := by
  refine ⟨?_, ?_, ?_, ?_, ?_, ?_, ?_⟩
  · intro c h; simp [GetActorCode, h]
  · intro h h2; simp [GetActorCode, h, h2]
  · intro r hsys h
    simp only [GetRobustAddress]
    rw [if_neg (by simp only [hsys]; exact Bool.false_ne_true)]
    simp [h]
  · intro hsys h h2
    simp only [GetRobustAddress]
    rw [if_neg (by simp only [hsys]; exact Bool.false_ne_true)]
    simp [h, h2]
  · intro hsys
    simp only [GetRobustAddress]
    rw [if_pos hsys]
  · intro s h; simp [GetShortAddress, h]
  · intro h h2; simp [GetShortAddress, h, h2]

/-- Witness for the amended C3: three concrete instances, one per clause
family — an offline hit for the actor code, a two-tier failure for the
short address, and the system-actor case for the robust address. -/
theorem c3_amended_two_tier_failure_semantics_witness :
    GetActorCode 4 env1 [⟨"f0900", "f2x", "bafkStored"⟩] "f0900" "tsk" =
      (.ok "bafkStored", [⟨"f0900", "f2x", "bafkStored"⟩], [.offlineRead]) ∧
    GetShortAddress 4 env1 [] "f0900" = (.err, [], [.offlineRead, .onChainQuery]) ∧
    GetRobustAddress 4 env1 [] "f00" = (.ok "f00", [], []) := by
  refine ⟨?_, ?_, ?_⟩
  · exact (c3_amended_two_tier_failure_semantics 3 env1
      [⟨"f0900", "f2x", "bafkStored"⟩] "f0900" "tsk").1 "bafkStored" (by decide)
  · exact (c3_amended_two_tier_failure_semantics 3 env1 [] "f0900" "tsk").2.2.2.2.2.2
      rfl rfl
  · exact (c3_amended_two_tier_failure_semantics 3 env1 [] "f00" "tsk").2.2.2.2.1
      (by decide)

theorem mergeInfo_short_key (r p : AddressInfo) (h : p.short = r.short) :
    (mergeInfo r p).short = r.short := by
  simp only [mergeInfo]
  split <;> simp_all

theorem storeAddressInfo_singleton (r p : AddressInfo) (h : p.short = r.short) :
    StoreAddressInfo [r] p = [mergeInfo r p] := by
  simp [StoreAddressInfo, h]

theorem foldl_mergeInfo_facets (puts : List AddressInfo) (r0 : AddressInfo) :
    (puts.foldl mergeInfo r0).short =
        lastNonEmpty r0.short (puts.map AddressInfo.short) ∧
      (puts.foldl mergeInfo r0).robust =
        lastNonEmpty r0.robust (puts.map AddressInfo.robust) ∧
      (puts.foldl mergeInfo r0).actorCid =
        lastNonEmpty r0.actorCid (puts.map AddressInfo.actorCid) := by
  induction puts generalizing r0 with
  | nil => exact ⟨rfl, rfl, rfl⟩
  | cons p ps ih =>
    have h := ih (mergeInfo r0 p)
    simp only [List.foldl_cons, List.map_cons, lastNonEmpty] at h ⊢
    exact h

theorem foldl_storeAddressInfo_singleton (puts : List AddressInfo)
    (r0 : AddressInfo) (hk : ∀ p ∈ puts, p.short = r0.short) :
    puts.foldl StoreAddressInfo [r0] = [puts.foldl mergeInfo r0] := by
  induction puts generalizing r0 with
  | nil => rfl
  | cons p ps ih =>
    have hkey : p.short = r0.short := hk p (List.mem_cons_self p ps)
    have hrest : ∀ q ∈ ps, q.short = (mergeInfo r0 p).short := by
      intro q hq
      rw [mergeInfo_short_key r0 p hkey]
      exact hk q (List.mem_cons_of_mem p hq)
    calc (p :: ps).foldl StoreAddressInfo [r0]
        = ps.foldl StoreAddressInfo (StoreAddressInfo [r0] p) := rfl
      _ = ps.foldl StoreAddressInfo [mergeInfo r0 p] := by
          rw [storeAddressInfo_singleton r0 p hkey]
      _ = [ps.foldl mergeInfo (mergeInfo r0 p)] := ih (mergeInfo r0 p) hrest

theorem lastNonEmpty_eq_empty_iff (xs : List String) (init : String) :
    lastNonEmpty init xs = "" ↔ (init = "" ∧ ∀ x ∈ xs, x = "") := by
  induction xs generalizing init with
  | nil => simp [lastNonEmpty]
  | cons x xs ih =>
    simp only [lastNonEmpty, List.foldl_cons] at ih ⊢
    rw [ih]
    by_cases hx : x = ""
    · simp [hx]
    · simp only [if_pos hx, List.mem_cons]
      constructor
      · rintro ⟨h1, -⟩; exact absurd h1 hx
      · rintro ⟨-, h2⟩; exact absurd (h2 x (Or.inl rfl)) hx

/-- C4: merge-never-erases. Iterating the Offline Store's `Put`
(`StoreAddressInfo`) over any sequence of partial records for the same
resolved identity acts as the additive facet merge on that identity's
record: each facet of the final record is the last non-empty value supplied
for it (so the final record's non-empty facets are exactly the union of the
non-empty facets ever supplied), and a facet is empty in the end only when
it was initially empty and no call ever supplied it — a call with an empty
facet never erases a previously stored non-empty facet. -/
theorem c4_merge_never_erases (r0 : AddressInfo) (puts : List AddressInfo)
    (hk : ∀ p ∈ puts, p.short = r0.short) :
    puts.foldl StoreAddressInfo [r0] = [puts.foldl mergeInfo r0] ∧
    ((puts.foldl mergeInfo r0).short =
        lastNonEmpty r0.short (puts.map AddressInfo.short) ∧
      (puts.foldl mergeInfo r0).robust =
        lastNonEmpty r0.robust (puts.map AddressInfo.robust) ∧
      (puts.foldl mergeInfo r0).actorCid =
        lastNonEmpty r0.actorCid (puts.map AddressInfo.actorCid)) ∧
    ((puts.foldl mergeInfo r0).short = "" ↔
        r0.short = "" ∧ ∀ p ∈ puts, p.short = "") ∧
    ((puts.foldl mergeInfo r0).robust = "" ↔
        r0.robust = "" ∧ ∀ p ∈ puts, p.robust = "") ∧
    ((puts.foldl mergeInfo r0).actorCid = "" ↔
        r0.actorCid = "" ∧ ∀ p ∈ puts, p.actorCid = "") := by
  obtain ⟨hs, hr, hc⟩ := foldl_mergeInfo_facets puts r0
  refine ⟨foldl_storeAddressInfo_singleton puts r0 hk, ⟨hs, hr, hc⟩, ?_, ?_, ?_⟩
  · rw [hs, lastNonEmpty_eq_empty_iff]
    simp [List.forall_mem_map]
  · rw [hr, lastNonEmpty_eq_empty_iff]
    simp [List.forall_mem_map]
  · rw [hc, lastNonEmpty_eq_empty_iff]
    simp [List.forall_mem_map]

/-- Witness for C4: two partial puts for identity `f0100`, one carrying
only the robust facet and one carrying only the code facet; the final
record holds the union of the supplied facets. -/
theorem c4_merge_never_erases_witness :
    ([⟨"f0100", "f2robust", ""⟩, ⟨"f0100", "", "bafkCid"⟩] :
        List AddressInfo).foldl StoreAddressInfo [⟨"f0100", "", ""⟩] =
      [⟨"f0100", "f2robust", "bafkCid"⟩] := by
  have h := (c4_merge_never_erases ⟨"f0100", "", ""⟩
    [⟨"f0100", "f2robust", ""⟩, ⟨"f0100", "", "bafkCid"⟩] (by decide)).1
  exact h.trans (by decide)

/-- C5: the claim holds on the modelled `GetBaseFee`. For a trace payload
with two (or more) usable fee entries at level zero, `GetBaseFee` returns
the value of the first level-zero entry in order of occurrence, regardless
of the value of the later entry — so neither the sum nor the last value. -/
theorem c5_duplicate_level_zero_fee_first_wins (l1 l2 l3 : List FeeEntry)
    (e1 e2 : FeeEntry) (ts : ExtendedTipSet) (v1 v2 : Nat)
    (h0 : ∀ e ∈ l1, (e.level == 0 && e.value.isSome) = false)
    (he1 : e1.level = 0) (hv1 : e1.value = some v1)
    (_he2 : e2.level = 0) (_hv2 : e2.value = some v2) :
    GetBaseFee (l1 ++ e1 :: l2 ++ e2 :: l3) ts = some v1 := by
  have hnone : l1.find? (fun e => e.level == 0 && e.value.isSome) = none :=
    List.find?_eq_none.mpr (fun x hx => by simp [h0 x hx])
  have hpos : (e1.level == 0 && e1.value.isSome) = true := by simp [he1, hv1]
  have hfind : (l1 ++ e1 :: l2 ++ e2 :: l3).find?
      (fun e => e.level == 0 && e.value.isSome) = some e1 := by
    have h1 : (e1 :: l2).find? (fun e => e.level == 0 && e.value.isSome) = some e1 :=
      List.find?_cons_of_pos _ hpos
    rw [List.find?_append, List.find?_append, hnone, h1]
    rfl
  simp only [GetBaseFee]
  rw [hfind]
  exact hv1

/-- Witness for C5: two level-zero entries with values 5 and 7; the result
is 5 — the first one, not the sum 12 and not the last value 7. -/
theorem c5_duplicate_level_zero_fee_first_wins_witness :
    GetBaseFee [⟨0, some 5⟩, ⟨0, some 7⟩] ⟨[⟨"bafyBlk", 100⟩], "bafyTs"⟩ = some 5 ∧
      (5 : Nat) ≠ 5 + 7 ∧ (5 : Nat) ≠ 7 := by
  refine ⟨?_, by decide, by decide⟩
  exact c5_duplicate_level_zero_fee_first_wins [] [] [] ⟨0, some 5⟩ ⟨0, some 7⟩
    ⟨[⟨"bafyBlk", 100⟩], "bafyTs"⟩ 5 7 (by simp) rfl rfl rfl rfl

/-- C6: for a payload whose first usable level-zero fee entry exists,
`GetBaseFee` returns that entry's value; for a payload with no usable
level-zero fee entry, it returns the recorded parent base fee of the first
block of the supplied tipset. -/
theorem c6_base_fee_and_fallback (entries : List FeeEntry) (ts : ExtendedTipSet) :
    (∀ e, entries.find? (fun e => e.level == 0 && e.value.isSome) = some e →
      GetBaseFee entries ts = e.value) ∧
    (entries.find? (fun e => e.level == 0 && e.value.isSome) = none →
      ∀ b bs, ts.blocks = b :: bs → GetBaseFee entries ts = some b.parentBaseFee) := by
  constructor
  · intro e h
    simp [GetBaseFee, h]
  · intro h b bs hb
    simp [GetBaseFee, h, hb]

/-- Witness for C6: a payload with a usable level-zero entry yields that
entry's value; a payload whose level-zero entry failed to decode falls back
to the first block's recorded parent base fee. -/
theorem c6_base_fee_and_fallback_witness :
    GetBaseFee [⟨1, some 3⟩, ⟨0, some 96036633⟩] ⟨[⟨"bafyBlk", 100⟩], "bafyTs"⟩ =
        some 96036633 ∧
      GetBaseFee [⟨1, some 3⟩, ⟨0, none⟩] ⟨[⟨"bafyBlk", 100⟩], "bafyTs"⟩ = some 100 := by
  constructor
  · exact (c6_base_fee_and_fallback [⟨1, some 3⟩, ⟨0, some 96036633⟩]
      ⟨[⟨"bafyBlk", 100⟩], "bafyTs"⟩).1 ⟨0, some 96036633⟩ (by decide)
  · exact (c6_base_fee_and_fallback [⟨1, some 3⟩, ⟨0, none⟩]
      ⟨[⟨"bafyBlk", 100⟩], "bafyTs"⟩).2 (by decide) ⟨"bafyBlk", 100⟩ [] rfl

theorem selectDecoder_v1 (v : String) (h : v ∈ NodeVersionsSupportedV1) :
    selectDecoder v = some decoderV1 := by
  simp only [NodeVersionsSupportedV1, List.mem_singleton] at h
  subst h
  rfl

theorem selectDecoder_v2 (v : String) (h : v ∈ NodeVersionsSupportedV2) :
    selectDecoder v = some decoderV2 := by
  simp only [NodeVersionsSupportedV2, List.mem_cons, List.mem_singleton,
    List.not_mem_nil, or_false] at h
  rcases h with h | h | h | h <;> subst h <;> rfl

/-- C7: cross-version equivalence on the modelled pipeline. Parsing the same
trace payload under a version matched by the v1 decoder and under a version
matched by the v2 decoder, when both decode the payload, yields transaction
sequences of equal length with field-by-field equal corresponding records,
and address registries of equal size with identical entries for every key. -/
theorem c7_cross_version_equivalence (resolve : String → Option AddressInfo)
    (payload : List Trace) (ts : ExtendedTipSet) (va vb : String)
    (hva : va ∈ NodeVersionsSupportedV1) (hvb : vb ∈ NodeVersionsSupportedV2)
    (txs1 txs2 : List Transaction) (reg1 reg2 : AddressInfoMap)
    (hp1 : ParseTransactions resolve payload ts va = some (txs1, reg1))
    (hp2 : ParseTransactions resolve payload ts vb = some (txs2, reg2)) :
    txs1.length = txs2.length ∧
      (∀ i (h1 : i < txs1.length) (h2 : i < txs2.length),
        txs1.get ⟨i, h1⟩ = txs2.get ⟨i, h2⟩) ∧
      reg1.length = reg2.length ∧
      (∀ k, registryGet reg1 k = registryGet reg2 k) := by
  simp only [ParseTransactions, selectDecoder_v1 va hva] at hp1
  simp only [ParseTransactions, selectDecoder_v2 vb hvb] at hp2
  have hd1 : decoderV1.decode = uniformDecode := rfl
  have hd2 : decoderV2.decode = uniformDecode := rfl
  rw [hd1] at hp1
  rw [hd2] at hp2
  cases hd : uniformDecode payload with
  | none =>
    rw [hd] at hp1
    exact absurd hp1 (by simp)
  | some drafts =>
    rw [hd] at hp1
    rw [hd] at hp2
    simp only [Option.some.injEq, Prod.mk.injEq] at hp1 hp2
    obtain ⟨h1t, h1r⟩ := hp1
    obtain ⟨h2t, h2r⟩ := hp2
    subst h1t; subst h1r
    subst h2t; subst h2r
    exact ⟨rfl, fun i h1 h2 => rfl, rfl, fun k => rfl⟩

/-- Witness for C7: one concrete payload parsed under reported versions
`v1.22` and `v1.23`; both runs yield this one-transaction sequence and this
two-entry registry. -/
theorem c7_cross_version_equivalence_witness :
    ([⟨"f0100", "f0101", "send", 42, "bafyBlk", "bafyTs"⟩] : List Transaction).length = 1 ∧
      registryGet [("f0100", (⟨"f0100", "", ""⟩ : AddressInfo)),
        ("f0101", ⟨"f0101", "", ""⟩)] "f0101" = some ⟨"f0101", "", ""⟩ := by
  have h := c7_cross_version_equivalence (fun a => some ⟨a, "", ""⟩)
    [⟨"f0100", "f0101", "send", 42⟩] ⟨[⟨"bafyBlk", 100⟩], "bafyTs"⟩
    "v1.22" "v1.23" (by decide) (by decide) _ _ _ _ rfl rfl
  exact ⟨h.1, (h.2.2.2 "f0101").trans (by decide)⟩

/-- C8: genesis provenance. `ParseGenesis` produces exactly one transaction
per balance-allocation entry, and every produced transaction carries the
same provenance pair: the supplied genesis tipset's first block CID and the
genesis tipset's own CID. -/
theorem c8_genesis_provenance (balances : List GenesisBalance)
    (ts : ExtendedTipSet) :
    (ParseGenesis balances ts).length = balances.length ∧
      ∀ tx ∈ ParseGenesis balances ts,
        tx.blockCid = tipsetBlockCid ts ∧ tx.tipsetCid = ts.tipsetCid := by
  refine ⟨List.length_map _ _, ?_⟩
  intro tx htx
  simp only [ParseGenesis, List.mem_map] at htx
  obtain ⟨b, -, rfl⟩ := htx
  exact ⟨rfl, rfl⟩

/-- Witness for C8 at a concrete two-entry genesis balance list. -/
theorem c8_genesis_provenance_witness :
    (ParseGenesis [⟨"f0100", 7⟩, ⟨"f0101", 9⟩]
        ⟨[⟨"bafyGen", 100⟩], "bafyGenTs"⟩).length = 2 ∧
      ("bafyGen" = tipsetBlockCid ⟨[⟨"bafyGen", 100⟩], "bafyGenTs"⟩ ∧
        "bafyGenTs" = "bafyGenTs") := by
  have h := c8_genesis_provenance [⟨"f0100", 7⟩, ⟨"f0101", 9⟩]
    ⟨[⟨"bafyGen", 100⟩], "bafyGenTs"⟩
  exact ⟨h.1, h.2 ⟨"", "f0100", "genesis", 7, "bafyGen", "bafyGenTs"⟩ (by decide)⟩

theorem keyMatch_cases (a : String) (r : AddressInfo) (h : keyMatch a r = true) :
    a ≠ "" ∧ (r.short = a ∨ r.robust = a) := by
  simpa [keyMatch] using h

theorem findRec_cons_pos (rest : Store) (r : AddressInfo) (a : String)
    (h : keyMatch a r = true) : findRec (r :: rest) a = some r :=
  List.find?_cons_of_pos _ h

theorem findRec_cons_neg (rest : Store) (r : AddressInfo) (a : String)
    (h : keyMatch a r = false) : findRec (r :: rest) a = findRec rest a :=
  List.find?_cons_of_neg _ (by simp [h])

theorem offlineGetShort_cons_neg (rest : Store) (r : AddressInfo) (a : String)
    (h : keyMatch a r = false) :
    offlineGetShort (r :: rest) a = offlineGetShort rest a := by
  simp [offlineGetShort, findRec_cons_neg rest r a h]

theorem offlineGetRobust_cons_neg (rest : Store) (r : AddressInfo) (a : String)
    (h : keyMatch a r = false) :
    offlineGetRobust (r :: rest) a = offlineGetRobust rest a := by
  simp [offlineGetRobust, findRec_cons_neg rest r a h]

theorem offlineGetActorCode_cons_neg (rest : Store) (r : AddressInfo) (a : String)
    (h : keyMatch a r = false) :
    offlineGetActorCode (r :: rest) a = offlineGetActorCode rest a := by
  simp [offlineGetActorCode, findRec_cons_neg rest r a h]

theorem robust_hit_of_short_miss (st : Store) (a r : String)
    (hs : offlineGetShort st a = none) (hr : offlineGetRobust st a = some r) :
    r = a := by
  unfold offlineGetShort at hs
  unfold offlineGetRobust at hr
  cases hf : findRec st a with
  | none => rw [hf] at hr; exact absurd hr (by simp)
  | some M =>
    rw [hf] at hs hr
    have hM : keyMatch a M = true := List.find?_some hf
    obtain ⟨ha, hor⟩ := keyMatch_cases a M hM
    have hMs : M.short = "" := by
      by_cases h : M.short = ""
      · exact h
      · simp [h] at hs
    have hMr : M.robust = r := by
      by_cases h : M.robust = ""
      · simp [h] at hr
      · simpa [h] using hr
    rcases hor with h | h
    · rw [hMs] at h; exact absurd h.symm ha
    · rw [hMr] at h; exact h

theorem short_hit_of_robust_miss (st : Store) (a s : String)
    (hr : offlineGetRobust st a = none) (hs : offlineGetShort st a = some s) :
    s = a := by
  unfold offlineGetShort at hs
  unfold offlineGetRobust at hr
  cases hf : findRec st a with
  | none => rw [hf] at hs; exact absurd hs (by simp)
  | some M =>
    rw [hf] at hs hr
    have hM : keyMatch a M = true := List.find?_some hf
    obtain ⟨ha, hor⟩ := keyMatch_cases a M hM
    have hMr : M.robust = "" := by
      by_cases h : M.robust = ""
      · exact h
      · simp [h] at hr
    have hMs : M.short = s := by
      by_cases h : M.short = ""
      · simp [h] at hs
      · simpa [h] using hs
    rcases hor with h | h
    · rw [hMs] at h; exact h
    · rw [hMr] at h; exact absurd h.symm ha

theorem mergeInfo_self (i : AddressInfo) : mergeInfo i i = i := by
  simp [mergeInfo]

theorem mergeInfo_idem (r i : AddressInfo) :
    mergeInfo (mergeInfo r i) i = mergeInfo r i := by
  simp only [mergeInfo]
  by_cases h1 : i.short = "" <;> by_cases h2 : i.robust = "" <;>
    by_cases h3 : i.actorCid = "" <;> simp [h1, h2, h3]

theorem mergeInfo_short_guard (r i : AddressInfo) (h : (r.short == i.short) = true) :
    ((mergeInfo r i).short == i.short) = true := by
  simp only [mergeInfo]
  by_cases h1 : i.short = "" <;> simp_all

theorem storeAddressInfo_idem (st : Store) (i : AddressInfo) :
    StoreAddressInfo (StoreAddressInfo st i) i = StoreAddressInfo st i := by
  induction st with
  | nil => simp [StoreAddressInfo, mergeInfo_self]
  | cons r rest ih =>
    by_cases h : (r.short == i.short) = true
    · simp [StoreAddressInfo, h, mergeInfo_short_guard r i h, mergeInfo_idem]
    · simp only [StoreAddressInfo, if_neg h]
      rw [ih]

theorem storeAddressInfo_pair_absorb (st : Store) (s a v : String) (ha : a ≠ "") :
    StoreAddressInfo (StoreAddressInfo (StoreAddressInfo st ⟨s, a, ""⟩) ⟨s, "", v⟩)
        ⟨s, a, ""⟩ =
      StoreAddressInfo (StoreAddressInfo st ⟨s, a, ""⟩) ⟨s, "", v⟩ := by
  induction st with
  | nil =>
    by_cases hs : s = "" <;> by_cases hv : v = "" <;>
      simp [StoreAddressInfo, mergeInfo, hs, hv, ha]
  | cons r rest ih =>
    by_cases h : (r.short == s) = true
    · have g1 : ((mergeInfo r ⟨s, a, ""⟩).short == s) = true :=
        mergeInfo_short_guard r ⟨s, a, ""⟩ h
      have g2 : ((mergeInfo (mergeInfo r ⟨s, a, ""⟩) ⟨s, "", v⟩).short == s) = true :=
        mergeInfo_short_guard (mergeInfo r ⟨s, a, ""⟩) ⟨s, "", v⟩ g1
      simp only [StoreAddressInfo, if_pos h, if_pos g1, if_pos g2]
      have : mergeInfo (mergeInfo (mergeInfo r ⟨s, a, ""⟩) ⟨s, "", v⟩) ⟨s, a, ""⟩ =
          mergeInfo (mergeInfo r ⟨s, a, ""⟩) ⟨s, "", v⟩ := by
        simp only [mergeInfo]
        by_cases hs : s = "" <;> by_cases hv : v = "" <;> simp [hs, hv, ha]
      rw [this]
    · simp only [StoreAddressInfo, if_neg h]
      rw [ih]

theorem post_write_short_lookup (st : Store) (a v : String) (ha : a ≠ "")
    (hv : v ≠ "") (hmiss : offlineGetShort st a = none) :
    offlineGetShort (StoreAddressInfo st ⟨v, a, ""⟩) a = some v ∨
      (offlineGetShort (StoreAddressInfo st ⟨v, a, ""⟩) a = none ∧
        offlineGetRobust (StoreAddressInfo st ⟨v, a, ""⟩) a = some a) := by
  induction st with
  | nil =>
    left
    have hm : keyMatch a ⟨v, a, ""⟩ = true := by simp [keyMatch, ha]
    simp [StoreAddressInfo, offlineGetShort, findRec_cons_pos [] _ a hm, hv]
  | cons r rest ih =>
    by_cases hg : (r.short == v) = true
    · left
      have hmerge : mergeInfo r ⟨v, a, ""⟩ = ⟨v, a, r.actorCid⟩ := by
        simp [mergeInfo, ha, hv]
      have hm : keyMatch a (⟨v, a, r.actorCid⟩ : AddressInfo) = true := by
        simp [keyMatch, ha]
      simp only [StoreAddressInfo, if_pos hg, hmerge]
      simp [offlineGetShort, findRec_cons_pos rest _ a hm, hv]
    · by_cases hk : keyMatch a r = true
      · right
        have hfr : findRec (r :: rest) a = some r := findRec_cons_pos rest r a hk
        have hrs : r.short = "" := by
          unfold offlineGetShort at hmiss
          rw [hfr] at hmiss
          by_cases h : r.short = ""
          · exact h
          · simp [h] at hmiss
        have hrr : r.robust = a := by
          obtain ⟨-, hor⟩ := keyMatch_cases a r hk
          rcases hor with h | h
          · rw [hrs] at h; exact absurd h.symm ha
          · exact h
        simp only [StoreAddressInfo, if_neg hg]
        have hfr2 : findRec (r :: StoreAddressInfo rest ⟨v, a, ""⟩) a = some r :=
          findRec_cons_pos _ r a hk
        constructor
        · simp [offlineGetShort, hfr2, hrs]
        · simp [offlineGetRobust, hfr2, hrr, ha]
      · have hk' : keyMatch a r = false := by
          cases h : keyMatch a r
          · rfl
          · exact absurd h hk
        have hmiss' : offlineGetShort rest a = none := by
          rw [offlineGetShort_cons_neg rest r a hk'] at hmiss; exact hmiss
        simp only [StoreAddressInfo, if_neg hg]
        rw [offlineGetShort_cons_neg _ r a hk', offlineGetRobust_cons_neg _ r a hk']
        exact ih hmiss'

theorem post_write_robust_lookup (st : Store) (a v : String) (ha : a ≠ "")
    (hv : v ≠ "") (hshort : offlineGetShort st a = some a)
    (hmiss : offlineGetRobust st a = none) :
    offlineGetRobust (StoreAddressInfo st ⟨a, v, ""⟩) a = some v := by
  induction st with
  | nil => simp [offlineGetShort, findRec] at hshort
  | cons r rest ih =>
    by_cases hk : keyMatch a r = true
    · have hfr : findRec (r :: rest) a = some r := findRec_cons_pos rest r a hk
      have hrs : r.short = a := by
        unfold offlineGetShort at hshort
        rw [hfr] at hshort
        by_cases h : r.short = ""
        · simp [h] at hshort
        · simpa [h] using hshort
      have hg : (r.short == a) = true := by simp [hrs]
      have hmerge : mergeInfo r ⟨a, v, ""⟩ = ⟨a, v, r.actorCid⟩ := by
        simp [mergeInfo, ha, hv, hrs]
      have hm : keyMatch a (⟨a, v, r.actorCid⟩ : AddressInfo) = true := by
        simp [keyMatch, ha]
      simp only [StoreAddressInfo, if_pos hg, hmerge]
      simp [offlineGetRobust, findRec_cons_pos rest _ a hm, hv]
    · have hk' : keyMatch a r = false := by
        cases h : keyMatch a r
        · rfl
        · exact absurd h hk
      have hg : (r.short == a) = false := by
        by_cases h : r.short = a
        · exfalso
          apply hk
          simp [keyMatch, ha, h]
        · simp [h]
      have hshort' : offlineGetShort rest a = some a := by
        rw [offlineGetShort_cons_neg rest r a hk'] at hshort; exact hshort
      have hmiss' : offlineGetRobust rest a = none := by
        rw [offlineGetRobust_cons_neg rest r a hk'] at hmiss; exact hmiss
      simp only [StoreAddressInfo]
      rw [if_neg (show ¬((r.short == a) = true) by simp [hg])]
      rw [offlineGetRobust_cons_neg _ r a hk']
      exact ih hshort' hmiss'

theorem offlineGetShort_cons_pos (rest : Store) (r : AddressInfo) (a : String)
    (hk : keyMatch a r = true) :
    offlineGetShort (r :: rest) a = if r.short ≠ "" then some r.short else none := by
  simp [offlineGetShort, findRec_cons_pos rest r a hk]

theorem offlineGetActorCode_cons_pos (rest : Store) (r : AddressInfo) (a : String)
    (hk : keyMatch a r = true) :
    offlineGetActorCode (r :: rest) a =
      if r.actorCid ≠ "" then some r.actorCid else none := by
  simp [offlineGetActorCode, findRec_cons_pos rest r a hk]

theorem offlineGetShort_some_ne (st : Store) (a s : String)
    (h : offlineGetShort st a = some s) : s ≠ "" := by
  unfold offlineGetShort at h
  cases hf : findRec st a with
  | none => rw [hf] at h; exact absurd h (by simp)
  | some M =>
    rw [hf] at h
    by_cases hM : M.short = ""
    · simp [hM] at h
    · have hMs : M.short = s := by simpa [hM] using h
      rw [← hMs]; exact hM

theorem keyMatch_of_fields (a : String) (r r' : AddressInfo)
    (hsf : r'.short = r.short) (hrf : r'.robust = r.robust) :
    keyMatch a r' = keyMatch a r := by
  simp [keyMatch, hsf, hrf]

theorem post_write_code_lookup (st : Store) (a s v : String) (hv : v ≠ "")
    (hshort : offlineGetShort st a = some s)
    (hmiss : offlineGetActorCode st a = none) :
    offlineGetActorCode (StoreAddressInfo st ⟨s, "", v⟩) a = some v ∨
      (offlineGetActorCode (StoreAddressInfo st ⟨s, "", v⟩) a = none ∧
        offlineGetShort (StoreAddressInfo st ⟨s, "", v⟩) a = some s) := by
  have hs : s ≠ "" := offlineGetShort_some_ne st a s hshort
  induction st with
  | nil => simp [offlineGetShort, findRec] at hshort
  | cons r rest ih =>
    by_cases hk : keyMatch a r = true
    · left
      have hrs : r.short = s := by
        rw [offlineGetShort_cons_pos rest r a hk] at hshort
        by_cases h : r.short = ""
        · simp [h] at hshort
        · simpa [h] using hshort
      have hg : (r.short == s) = true := by simp [hrs]
      have hmerge : mergeInfo r ⟨s, "", v⟩ = ⟨s, r.robust, v⟩ := by
        simp [mergeInfo, hs, hv, hrs]
      have hm : keyMatch a (⟨s, r.robust, v⟩ : AddressInfo) = true := by
        rw [keyMatch_of_fields a r ⟨s, r.robust, v⟩ (by simp [hrs]) rfl]
        exact hk
      simp only [StoreAddressInfo, if_pos hg, hmerge]
      simp [offlineGetActorCode, findRec_cons_pos rest _ a hm, hv]
    · have hk' : keyMatch a r = false := by
        cases h : keyMatch a r
        · rfl
        · exact absurd h hk
      have hshort' : offlineGetShort rest a = some s := by
        rw [offlineGetShort_cons_neg rest r a hk'] at hshort; exact hshort
      have hmiss' : offlineGetActorCode rest a = none := by
        rw [offlineGetActorCode_cons_neg rest r a hk'] at hmiss; exact hmiss
      by_cases hg : (r.short == s) = true
      · right
        have hmerge : mergeInfo r ⟨s, "", v⟩ = ⟨s, r.robust, v⟩ := by
          simp [mergeInfo, hs, hv, (beq_iff_eq.mp hg)]
        have hm' : keyMatch a (⟨s, r.robust, v⟩ : AddressInfo) = false := by
          rw [keyMatch_of_fields a r ⟨s, r.robust, v⟩
            (by simp [beq_iff_eq.mp hg]) rfl]
          exact hk'
        simp only [StoreAddressInfo, if_pos hg, hmerge]
        rw [offlineGetActorCode_cons_neg rest _ a hm',
          offlineGetShort_cons_neg rest _ a hm']
        exact ⟨hmiss', hshort'⟩
      · simp only [StoreAddressInfo]
        rw [if_neg (show ¬((r.short == s) = true) from hg)]
        rw [offlineGetActorCode_cons_neg _ r a hk',
          offlineGetShort_cons_neg _ r a hk']
        exact ih hshort' hmiss'

theorem post_write_code_lookup_cold (st : Store) (a s v : String) (ha : a ≠ "")
    (hs : s ≠ "") (hv : v ≠ "")
    (hmiss_s : offlineGetShort st a = none)
    (hmiss_c : offlineGetActorCode st a = none) :
    offlineGetActorCode
        (StoreAddressInfo (StoreAddressInfo st ⟨s, a, ""⟩) ⟨s, "", v⟩) a = some v ∨
      (offlineGetActorCode
          (StoreAddressInfo (StoreAddressInfo st ⟨s, a, ""⟩) ⟨s, "", v⟩) a = none ∧
        offlineGetShort
          (StoreAddressInfo (StoreAddressInfo st ⟨s, a, ""⟩) ⟨s, "", v⟩) a = none ∧
        offlineGetRobust
          (StoreAddressInfo (StoreAddressInfo st ⟨s, a, ""⟩) ⟨s, "", v⟩) a = some a) := by
  induction st with
  | nil =>
    left
    have hm : keyMatch a (⟨s, a, v⟩ : AddressInfo) = true := by simp [keyMatch, ha]
    have h1 : StoreAddressInfo ([] : Store) ⟨s, a, ""⟩ = [⟨s, a, ""⟩] := rfl
    have h2 : StoreAddressInfo [(⟨s, a, ""⟩ : AddressInfo)] ⟨s, "", v⟩ = [⟨s, a, v⟩] := by
      simp [StoreAddressInfo, mergeInfo, hs, hv]
    rw [h1, h2]
    simp [offlineGetActorCode, findRec_cons_pos [] _ a hm, hv]
  | cons r rest ih =>
    by_cases hg : (r.short == s) = true
    · left
      have hm1 : mergeInfo r ⟨s, a, ""⟩ = ⟨s, a, r.actorCid⟩ := by
        simp [mergeInfo, hs, ha]
      have hg2 : ((⟨s, a, r.actorCid⟩ : AddressInfo).short == s) = true := by simp
      have hm2 : mergeInfo (⟨s, a, r.actorCid⟩ : AddressInfo) ⟨s, "", v⟩ =
          ⟨s, a, v⟩ := by
        simp [mergeInfo, hs, hv]
      have hm : keyMatch a (⟨s, a, v⟩ : AddressInfo) = true := by simp [keyMatch, ha]
      simp only [StoreAddressInfo, if_pos hg, hm1, if_pos hg2, hm2]
      simp [offlineGetActorCode, findRec_cons_pos rest _ a hm, hv]
    · by_cases hk : keyMatch a r = true
      · right
        have hrs : r.short = "" := by
          rw [offlineGetShort_cons_pos rest r a hk] at hmiss_s
          by_cases h : r.short = ""
          · exact h
          · simp [h] at hmiss_s
        have hrc : r.actorCid = "" := by
          rw [offlineGetActorCode_cons_pos rest r a hk] at hmiss_c
          by_cases h : r.actorCid = ""
          · exact h
          · simp [h] at hmiss_c
        have hrr : r.robust = a := by
          obtain ⟨-, hor⟩ := keyMatch_cases a r hk
          rcases hor with h | h
          · rw [hrs] at h; exact absurd h.symm ha
          · exact h
        simp only [StoreAddressInfo]
        rw [if_neg (show ¬((r.short == s) = true) from hg)]
        simp only [StoreAddressInfo]
        rw [if_neg (show ¬((r.short == s) = true) from hg)]
        have hfr : findRec
            (r :: StoreAddressInfo (StoreAddressInfo rest ⟨s, a, ""⟩) ⟨s, "", v⟩) a =
            some r := findRec_cons_pos _ r a hk
        refine ⟨?_, ?_, ?_⟩
        · simp [offlineGetActorCode, hfr, hrc]
        · simp [offlineGetShort, hfr, hrs]
        · simp [offlineGetRobust, hfr, hrr, ha]
      · have hk' : keyMatch a r = false := by
          cases h : keyMatch a r
          · rfl
          · exact absurd h hk
        have hmiss_s' : offlineGetShort rest a = none := by
          rw [offlineGetShort_cons_neg rest r a hk'] at hmiss_s; exact hmiss_s
        have hmiss_c' : offlineGetActorCode rest a = none := by
          rw [offlineGetActorCode_cons_neg rest r a hk'] at hmiss_c; exact hmiss_c
        simp only [StoreAddressInfo]
        rw [if_neg (show ¬((r.short == s) = true) from hg)]
        simp only [StoreAddressInfo]
        rw [if_neg (show ¬((r.short == s) = true) from hg)]
        rw [offlineGetActorCode_cons_neg _ r a hk',
          offlineGetShort_cons_neg _ r a hk',
          offlineGetRobust_cons_neg _ r a hk']
        exact ih hmiss_s' hmiss_c'

theorem gs_run_hit (n : Nat) (env : Env) (st : Store) (a v : String)
    (h : offlineGetShort st a = some v) :
    GetShortAddress (n + 1) env st a = (.ok v, st, [.offlineRead]) := by
  simp [GetShortAddress, h]

theorem gr_run_hit (n : Nat) (env : Env) (st : Store) (a v : String)
    (hsys : SystemActorsId.contains a = false)
    (h : offlineGetRobust st a = some v) :
    GetRobustAddress (n + 1) env st a = (.ok v, st, [.offlineRead]) := by
  simp only [GetRobustAddress]
  rw [if_neg (by simp only [hsys]; exact Bool.false_ne_true)]
  simp [h]

theorem gc_run_hit (n : Nat) (env : Env) (st : Store) (a key v : String)
    (h : offlineGetActorCode st a = some v) :
    GetActorCode (n + 1) env st a key = (.ok v, st, [.offlineRead]) := by
  simp [GetActorCode, h]

theorem gs_run_store (n : Nat) (env : Env) (st : Store) (a s r : String)
    (st' : Store) (l' : List Evt)
    (h1 : offlineGetShort st a = none) (hs : env.short a = some s)
    (hgr : GetRobustAddress (n + 1) env st a = (.ok r, st', l')) :
    GetShortAddress (n + 3) env st a =
      (.ok s, StoreAddressInfo st' ⟨s, r, ""⟩,
        .offlineRead :: .onChainQuery :: (l' ++ [.offlineWrite])) := by
  show GetShortAddress (n + 2 + 1) env st a = _
  simp [GetShortAddress, h1, hs, storeShortAddress, hgr]

theorem gr_run_store (n : Nat) (env : Env) (st : Store) (a s r : String)
    (st' : Store) (l' : List Evt)
    (hsys : SystemActorsId.contains a = false)
    (h1 : offlineGetRobust st a = none) (hr : env.robust a = some r)
    (hgs : GetShortAddress (n + 1) env st a = (.ok s, st', l')) :
    GetRobustAddress (n + 3) env st a =
      (.ok r, StoreAddressInfo st' ⟨s, r, ""⟩,
        .offlineRead :: .onChainQuery :: (l' ++ [.offlineWrite])) := by
  show GetRobustAddress (n + 2 + 1) env st a = _
  simp only [GetRobustAddress]
  rw [if_neg (by simp only [hsys]; exact Bool.false_ne_true)]
  simp [h1, hr, storeRobustAddress, hgs]

theorem gc_run_store (n : Nat) (env : Env) (st : Store) (a key s c : String)
    (st' : Store) (l' : List Evt)
    (h1 : offlineGetActorCode st a = none) (hc : env.actorCode a key = some c)
    (hgs : GetShortAddress (n + 1) env st a = (.ok s, st', l')) :
    GetActorCode (n + 3) env st a key =
      (.ok c, StoreAddressInfo st' ⟨s, "", c⟩,
        .offlineRead :: .onChainQuery :: (l' ++ [.offlineWrite])) := by
  show GetActorCode (n + 2 + 1) env st a key = _
  simp [GetActorCode, h1, hc, storeActorCode, hgs]

theorem gs_char (n : Nat) (env : Env) (st : Store) (a v : String)
    (st1 : Store) (l : List Evt)
    (h : GetShortAddress n env st a = (.ok v, st1, l)) :
    (offlineGetShort st a = some v ∧ st1 = st) ∨
      (offlineGetShort st a = none ∧ env.short a = some v ∧
        st1 = StoreAddressInfo st ⟨v, a, ""⟩ ∧
        (SystemActorsId.contains a = true ∨
          (SystemActorsId.contains a = false ∧ offlineGetRobust st a = some a)) ∧
        3 ≤ n) := by
  match n with
  | 0 => exact absurd h (by simp [GetShortAddress])
  | m + 1 =>
    cases hos : offlineGetShort st a with
    | some s =>
      left
      simp only [GetShortAddress, hos, Prod.mk.injEq, RRes.ok.injEq] at h
      exact ⟨congrArg some h.1, h.2.1.symm⟩
    | none =>
      right
      cases hes : env.short a with
      | none => simp only [GetShortAddress, hos, hes] at h; exact absurd h (by simp)
      | some s =>
        rcases hrun : storeShortAddress m env st a ⟨s, "", ""⟩ with ⟨res, st2, l2⟩
        cases res with
        | err =>
          simp only [GetShortAddress, hos, hes, hrun] at h
          exact absurd h (by simp)
        | diverge =>
          simp only [GetShortAddress, hos, hes, hrun] at h
          exact absurd h (by simp)
        | ok u =>
          simp only [GetShortAddress, hos, hes, hrun, Prod.mk.injEq,
            RRes.ok.injEq] at h
          obtain ⟨hv, hst1, -⟩ := h
          subst hv
          match m with
          | 0 => exact absurd hrun (by simp [storeShortAddress])
          | k + 1 =>
            rcases hrun2 : GetRobustAddress k env st a with ⟨res3, st3, l3⟩
            cases res3 with
            | err =>
              simp only [storeShortAddress, hrun2] at hrun
              exact absurd hrun (by simp)
            | diverge =>
              simp only [storeShortAddress, hrun2] at hrun
              exact absurd hrun (by simp)
            | ok r =>
              simp only [storeShortAddress, hrun2, Prod.mk.injEq,
                RRes.ok.injEq] at hrun
              obtain ⟨-, hst2, -⟩ := hrun
              match k with
              | 0 => exact absurd hrun2 (by simp [GetRobustAddress])
              | j + 1 =>
                cases hsys : SystemActorsId.contains a with
                | true =>
                  rw [getRobustAddress_system j env st a hsys] at hrun2
                  simp only [Prod.mk.injEq, RRes.ok.injEq] at hrun2
                  obtain ⟨hra, hst3, -⟩ := hrun2
                  refine ⟨rfl, rfl, ?_, Or.inl rfl, by omega⟩
                  rw [← hst1, ← hst2, ← hst3, ← hra]
                | false =>
                  cases hor : offlineGetRobust st a with
                  | some rv =>
                    rw [gr_run_hit j env st a rv hsys hor] at hrun2
                    simp only [Prod.mk.injEq, RRes.ok.injEq] at hrun2
                    obtain ⟨hra, hst3, -⟩ := hrun2
                    have hrva : rv = a := robust_hit_of_short_miss st a rv hos hor
                    refine ⟨rfl, rfl, ?_, Or.inr ⟨rfl, congrArg some hrva⟩, by omega⟩
                    rw [← hst1, ← hst2, ← hst3, ← hra, hrva]
                  | none =>
                    cases her : env.robust a with
                    | none =>
                      simp only [GetRobustAddress] at hrun2
                      rw [if_neg (by simp only [hsys]; exact Bool.false_ne_true)]
                        at hrun2
                      simp only [hor, her] at hrun2
                      exact absurd hrun2 (by simp)
                    | some r0 =>
                      have hdiv := ((cold_diverges env st a hsys hos hor
                        (by simp [hes]) (by simp [her])) j).2.2.2 ⟨"", r0, ""⟩
                      rcases hrun3 : storeRobustAddress j env st a ⟨"", r0, ""⟩
                        with ⟨res4, st4, l4⟩
                      rw [hrun3] at hdiv
                      simp only at hdiv
                      subst hdiv
                      simp only [GetRobustAddress] at hrun2
                      rw [if_neg (by simp only [hsys]; exact Bool.false_ne_true)]
                        at hrun2
                      simp only [hor, her, hrun3] at hrun2
                      exact absurd hrun2 (by simp)

theorem gr_char (n : Nat) (env : Env) (st : Store) (a v : String)
    (st1 : Store) (l : List Evt)
    (h : GetRobustAddress n env st a = (.ok v, st1, l)) :
    (SystemActorsId.contains a = true ∧ v = a ∧ st1 = st) ∨
      (SystemActorsId.contains a = false ∧ offlineGetRobust st a = some v ∧
        st1 = st) ∨
      (SystemActorsId.contains a = false ∧ offlineGetRobust st a = none ∧
        env.robust a = some v ∧ offlineGetShort st a = some a ∧
        st1 = StoreAddressInfo st ⟨a, v, ""⟩ ∧ 3 ≤ n) := by
  match n with
  | 0 => exact absurd h (by simp [GetRobustAddress])
  | m + 1 =>
    cases hsys : SystemActorsId.contains a with
    | true =>
      left
      rw [getRobustAddress_system m env st a hsys] at h
      simp only [Prod.mk.injEq, RRes.ok.injEq] at h
      exact ⟨rfl, h.1.symm, h.2.1.symm⟩
    | false =>
      right
      cases hor : offlineGetRobust st a with
      | some rv =>
        left
        rw [gr_run_hit m env st a rv hsys hor] at h
        simp only [Prod.mk.injEq, RRes.ok.injEq] at h
        exact ⟨rfl, congrArg some h.1, h.2.1.symm⟩
      | none =>
        right
        cases her : env.robust a with
        | none =>
          simp only [GetRobustAddress] at h
          rw [if_neg (by simp only [hsys]; exact Bool.false_ne_true)] at h
          simp only [hor, her] at h
          exact absurd h (by simp)
        | some r =>
          rcases hrun : storeRobustAddress m env st a ⟨"", r, ""⟩ with ⟨res, st2, l2⟩
          cases res with
          | err =>
            simp only [GetRobustAddress] at h
            rw [if_neg (by simp only [hsys]; exact Bool.false_ne_true)] at h
            simp only [hor, her, hrun] at h
            exact absurd h (by simp)
          | diverge =>
            simp only [GetRobustAddress] at h
            rw [if_neg (by simp only [hsys]; exact Bool.false_ne_true)] at h
            simp only [hor, her, hrun] at h
            exact absurd h (by simp)
          | ok u =>
            simp only [GetRobustAddress] at h
            rw [if_neg (by simp only [hsys]; exact Bool.false_ne_true)] at h
            simp only [hor, her, hrun, Prod.mk.injEq, RRes.ok.injEq] at h
            obtain ⟨hrv, hst1, -⟩ := h
            match m with
            | 0 => exact absurd hrun (by simp [storeRobustAddress])
            | k + 1 =>
              rcases hrun2 : GetShortAddress k env st a with ⟨res3, st3, l3⟩
              cases res3 with
              | err =>
                simp only [storeRobustAddress, hrun2] at hrun
                exact absurd hrun (by simp)
              | diverge =>
                simp only [storeRobustAddress, hrun2] at hrun
                exact absurd hrun (by simp)
              | ok s =>
                simp only [storeRobustAddress, hrun2, Prod.mk.injEq,
                  RRes.ok.injEq] at hrun
                obtain ⟨-, hst2, -⟩ := hrun
                match k with
                | 0 => exact absurd hrun2 (by simp [GetShortAddress])
                | j + 1 =>
                  rcases gs_char (j + 1) env st a s st3 l3 hrun2 with
                    ⟨hhit, hst3⟩ | ⟨-, -, -, hdis, -⟩
                  · have hsa : s = a := short_hit_of_robust_miss st a s hor hhit
                    refine ⟨rfl, rfl, congrArg some hrv, hsa ▸ hhit, ?_, by omega⟩
                    rw [← hst1, ← hst2, hst3, hsa, hrv]
                  · rcases hdis with htrue | ⟨-, hhit2⟩
                    · rw [hsys] at htrue
                      exact absurd htrue (by simp)
                    · rw [hor] at hhit2
                      exact absurd hhit2 (by simp)

theorem gc_char (n : Nat) (env : Env) (st : Store) (a key v : String)
    (st1 : Store) (l : List Evt)
    (h : GetActorCode n env st a key = (.ok v, st1, l)) :
    (offlineGetActorCode st a = some v ∧ st1 = st) ∨
      (offlineGetActorCode st a = none ∧ env.actorCode a key = some v ∧
        ((∃ s, offlineGetShort st a = some s ∧
            st1 = StoreAddressInfo st ⟨s, "", v⟩ ∧ 3 ≤ n) ∨
          (∃ s, offlineGetShort st a = none ∧ env.short a = some s ∧
            (SystemActorsId.contains a = true ∨
              (SystemActorsId.contains a = false ∧
                offlineGetRobust st a = some a)) ∧
            st1 = StoreAddressInfo (StoreAddressInfo st ⟨s, a, ""⟩) ⟨s, "", v⟩ ∧
            5 ≤ n))) := by
  match n with
  | 0 => exact absurd h (by simp [GetActorCode])
  | m + 1 =>
    cases hoc : offlineGetActorCode st a with
    | some c =>
      left
      rw [gc_run_hit m env st a key c hoc] at h
      simp only [Prod.mk.injEq, RRes.ok.injEq] at h
      exact ⟨congrArg some h.1, h.2.1.symm⟩
    | none =>
      right
      cases hec : env.actorCode a key with
      | none =>
        simp only [GetActorCode, hoc, hec] at h
        exact absurd h (by simp)
      | some c =>
        rcases hrun : storeActorCode m env st a ⟨"", "", c⟩ with ⟨res, st2, l2⟩
        cases res with
        | err =>
          simp only [GetActorCode, hoc, hec, hrun] at h
          exact absurd h (by simp)
        | diverge =>
          simp only [GetActorCode, hoc, hec, hrun] at h
          exact absurd h (by simp)
        | ok u =>
          simp only [GetActorCode, hoc, hec, hrun, Prod.mk.injEq,
            RRes.ok.injEq] at h
          obtain ⟨hcv, hst1, -⟩ := h
          match m with
          | 0 => exact absurd hrun (by simp [storeActorCode])
          | k + 1 =>
            rcases hrun2 : GetShortAddress k env st a with ⟨res3, st3, l3⟩
            cases res3 with
            | err =>
              simp only [storeActorCode, hrun2] at hrun
              exact absurd hrun (by simp)
            | diverge =>
              simp only [storeActorCode, hrun2] at hrun
              exact absurd hrun (by simp)
            | ok s =>
              simp only [storeActorCode, hrun2, Prod.mk.injEq,
                RRes.ok.injEq] at hrun
              obtain ⟨-, hst2, -⟩ := hrun
              refine ⟨rfl, congrArg some hcv, ?_⟩
              match k with
              | 0 => exact absurd hrun2 (by simp [GetShortAddress])
              | j + 1 =>
                rcases gs_char (j + 1) env st a s st3 l3 hrun2 with
                  ⟨hhit, hst3⟩ | ⟨hmiss, hse, hst3, hdis, hj3⟩
                · left
                  refine ⟨s, hhit, ?_, by omega⟩
                  rw [← hst1, ← hst2, hst3, hcv]
                · right
                  refine ⟨s, hmiss, hse, hdis, ?_, by omega⟩
                  rw [← hst1, ← hst2, hst3, hcv]

theorem offlineGetRobust_empty (st : Store) : offlineGetRobust st "" = none := by
  have : findRec st "" = none :=
    List.find?_eq_none.mpr (fun r _ => by simp [keyMatch])
  simp [offlineGetRobust, this]

theorem addr_ne_empty_of_terminal (st : Store) (a : String)
    (hdis : SystemActorsId.contains a = true ∨
      (SystemActorsId.contains a = false ∧ offlineGetRobust st a = some a)) :
    a ≠ "" := by
  intro he
  subst he
  rcases hdis with hsys | ⟨-, hhit⟩
  · exact absurd hsys (by decide)
  · rw [offlineGetRobust_empty st] at hhit
    exact absurd hhit (by simp)

theorem gs_replay (n : Nat) (env : Env) (st : Store) (a v : String)
    (st1 : Store) (l1 : List Evt) (henv : env.short a ≠ some "")
    (h : GetShortAddress n env st a = (.ok v, st1, l1)) :
    ∃ l2, GetShortAddress n env st1 a = (.ok v, st1, l2) := by
  rcases gs_char n env st a v st1 l1 h with ⟨hhit, rfl⟩ | ⟨hmiss, hse, hst1, hdis, hn⟩
  · match n with
    | 0 => exact absurd h (by simp [GetShortAddress])
    | m + 1 => exact ⟨[.offlineRead], gs_run_hit m env _ a v hhit⟩
  · have hv : v ≠ "" := by
      intro he; rw [he] at hse; exact henv hse
    have ha : a ≠ "" := addr_ne_empty_of_terminal st a hdis
    subst hst1
    obtain ⟨m, rfl⟩ : ∃ m, n = m + 3 := ⟨n - 3, by omega⟩
    rcases post_write_short_lookup st a v ha hv hmiss with hhit1 | ⟨hmiss1, hrob1⟩
    · exact ⟨[.offlineRead], gs_run_hit (m + 2) env _ a v hhit1⟩
    · obtain ⟨lg, hgr⟩ : ∃ lg, GetRobustAddress (m + 1) env
          (StoreAddressInfo st ⟨v, a, ""⟩) a =
          (.ok a, StoreAddressInfo st ⟨v, a, ""⟩, lg) := by
        rcases hdis with hsys | ⟨hsys, -⟩
        · exact ⟨[], getRobustAddress_system m env _ a hsys⟩
        · exact ⟨[.offlineRead], gr_run_hit m env _ a a hsys hrob1⟩
      have hgs := gs_run_store m env (StoreAddressInfo st ⟨v, a, ""⟩) a v a
        (StoreAddressInfo st ⟨v, a, ""⟩) lg hmiss1 hse hgr
      rw [storeAddressInfo_idem] at hgs
      exact ⟨_, hgs⟩

theorem gr_replay (n : Nat) (env : Env) (st : Store) (a v : String)
    (st1 : Store) (l1 : List Evt) (henv : env.robust a ≠ some "")
    (h : GetRobustAddress n env st a = (.ok v, st1, l1)) :
    ∃ l2, GetRobustAddress n env st1 a = (.ok v, st1, l2) := by
  rcases gr_char n env st a v st1 l1 h with
    ⟨hsys, hva, rfl⟩ | ⟨hsys, hhit, rfl⟩ | ⟨hsys, hmiss, her, hshort, hst1, hn⟩
  · match n with
    | 0 => exact absurd h (by simp [GetRobustAddress])
    | m + 1 =>
      exact ⟨[], by rw [hva]; exact getRobustAddress_system m env _ _ hsys⟩
  · match n with
    | 0 => exact absurd h (by simp [GetRobustAddress])
    | m + 1 => exact ⟨[.offlineRead], gr_run_hit m env _ a v hsys hhit⟩
  · have hv : v ≠ "" := by
      intro he; rw [he] at her; exact henv her
    have ha : a ≠ "" := by
      have := offlineGetShort_some_ne st a a hshort
      exact this
    subst hst1
    obtain ⟨m, rfl⟩ : ∃ m, n = m + 3 := ⟨n - 3, by omega⟩
    have hrob2 := post_write_robust_lookup st a v ha hv hshort hmiss
    exact ⟨[.offlineRead], gr_run_hit (m + 2) env _ a v hsys hrob2⟩

theorem gc_replay (n : Nat) (env : Env) (st : Store) (a key v : String)
    (st1 : Store) (l1 : List Evt)
    (henv_s : env.short a ≠ some "")
    (henv_c : env.actorCode a key ≠ some "")
    (h : GetActorCode n env st a key = (.ok v, st1, l1)) :
    ∃ l2, GetActorCode n env st1 a key = (.ok v, st1, l2) := by
  rcases gc_char n env st a key v st1 l1 h with ⟨hhit, rfl⟩ | ⟨hmiss, hec, hcase⟩
  · match n with
    | 0 => exact absurd h (by simp [GetActorCode])
    | m + 1 => exact ⟨[.offlineRead], gc_run_hit m env _ a key v hhit⟩
  · have hv : v ≠ "" := by
      intro he; rw [he] at hec; exact henv_c hec
    rcases hcase with ⟨s, hshort, hst1, hn⟩ | ⟨s, hmiss_s, hse, hdis, hst1, hn⟩
    · subst hst1
      obtain ⟨m, rfl⟩ : ∃ m, n = m + 3 := ⟨n - 3, by omega⟩
      rcases post_write_code_lookup st a s v hv hshort hmiss with
        hhit1 | ⟨hmiss1, hshort1⟩
      · exact ⟨[.offlineRead], gc_run_hit (m + 2) env _ a key v hhit1⟩
      · have hgs : GetShortAddress (m + 1) env (StoreAddressInfo st ⟨s, "", v⟩) a =
            (.ok s, StoreAddressInfo st ⟨s, "", v⟩, [.offlineRead]) :=
          gs_run_hit m env _ a s hshort1
        have hgc := gc_run_store m env (StoreAddressInfo st ⟨s, "", v⟩) a key s v
          (StoreAddressInfo st ⟨s, "", v⟩) [.offlineRead] hmiss1 hec hgs
        rw [storeAddressInfo_idem] at hgc
        exact ⟨_, hgc⟩
    · have hs : s ≠ "" := by
        intro he; rw [he] at hse; exact henv_s hse
      have ha : a ≠ "" := addr_ne_empty_of_terminal st a hdis
      subst hst1
      obtain ⟨m, rfl⟩ : ∃ m, n = m + 5 := ⟨n - 5, by omega⟩
      rcases post_write_code_lookup_cold st a s v ha hs hv hmiss_s hmiss with
        hhit1 | ⟨hm_c, hm_s, hm_r⟩
      · exact ⟨[.offlineRead], gc_run_hit (m + 4) env _ a key v hhit1⟩
      · obtain ⟨lg, hgr⟩ : ∃ lg, GetRobustAddress (m + 1) env
            (StoreAddressInfo (StoreAddressInfo st ⟨s, a, ""⟩) ⟨s, "", v⟩) a =
            (.ok a,
              StoreAddressInfo (StoreAddressInfo st ⟨s, a, ""⟩) ⟨s, "", v⟩, lg) := by
          rcases hdis with hsys | ⟨hsys, -⟩
          · exact ⟨[], getRobustAddress_system m env _ a hsys⟩
          · exact ⟨[.offlineRead], gr_run_hit m env _ a a hsys hm_r⟩
        have hgs := gs_run_store m env
          (StoreAddressInfo (StoreAddressInfo st ⟨s, a, ""⟩) ⟨s, "", v⟩) a s a
          (StoreAddressInfo (StoreAddressInfo st ⟨s, a, ""⟩) ⟨s, "", v⟩) lg
          hm_s hse hgr
        rw [storeAddressInfo_pair_absorb st s a v ha] at hgs
        have hgc := gc_run_store (m + 2) env
          (StoreAddressInfo (StoreAddressInfo st ⟨s, a, ""⟩) ⟨s, "", v⟩) a key s v
          (StoreAddressInfo (StoreAddressInfo st ⟨s, a, ""⟩) ⟨s, "", v⟩)
          (.offlineRead :: .onChainQuery :: (lg ++ [.offlineWrite])) hm_c hec hgs
        rw [storeAddressInfo_idem] at hgc
        exact ⟨_, hgc⟩

/-- C9: each public cache resolve operation is idempotent. For a well-formed
resolver (`EnvOk`: a successful on-chain lookup never produces an empty
facet), whenever a resolve operation succeeds with value `v` and final
offline store `st1`, calling the same operation again with the same
arguments from `st1` succeeds with the same value `v` and leaves the store
equal to `st1`. -/
theorem c9_resolve_operations_idempotent (n : Nat) (env : Env) (st : Store)
    (a key : String) (henv : EnvOk env) :
    (∀ v st1 l1, GetActorCode n env st a key = (.ok v, st1, l1) →
      ∃ l2, GetActorCode n env st1 a key = (.ok v, st1, l2)) ∧
    (∀ v st1 l1, GetRobustAddress n env st a = (.ok v, st1, l1) →
      ∃ l2, GetRobustAddress n env st1 a = (.ok v, st1, l2)) ∧
    (∀ v st1 l1, GetShortAddress n env st a = (.ok v, st1, l1) →
      ∃ l2, GetShortAddress n env st1 a = (.ok v, st1, l2)) := by
  obtain ⟨hc, hr, hs⟩ := henv
  exact ⟨fun v st1 l1 h => gc_replay n env st a key v st1 l1 (hs a) (hc a key) h,
    fun v st1 l1 h => gr_replay n env st a v st1 l1 (hr a) h,
    fun v st1 l1 h => gs_replay n env st a v st1 l1 (hs a) h⟩

/-- Witness for C9: a concrete successful `GetShortAddress` call on a warm
store; the repeated call returns the same value and the same store. -/
theorem c9_resolve_operations_idempotent_witness :
    (GetShortAddress 3 env0
        [⟨"f0100", "f2resolvedrobust", "bafkCodeCid"⟩] "f0100").1 =
      .ok "f0100" ∧
    (GetShortAddress 3 env0
        [⟨"f0100", "f2resolvedrobust", "bafkCodeCid"⟩] "f0100").2.1 =
      [⟨"f0100", "f2resolvedrobust", "bafkCodeCid"⟩] := by
  obtain ⟨l2, h⟩ := (c9_resolve_operations_idempotent 3 env0
    [⟨"f0100", "f2resolvedrobust", "bafkCodeCid"⟩] "f0100" "tsk"
    ⟨fun x k => by simp [env0], fun x => by simp [env0], fun x => by simp [env0]⟩).2.2
    "f0100" [⟨"f0100", "f2resolvedrobust", "bafkCodeCid"⟩] [.offlineRead] (by decide)
  exact ⟨by rw [h], by rw [h]⟩
